import Mathlib

/-!
Verification of the schema descriptor of `django-utilities`
(`src/model_descriptor.py`).

The file shallowly embeds the data model and the operations of the
`ModelDescriptor` class: normalization of raw Django column metadata into an
ordered, classified field list (`_load`), and the two pure renderers
(`markdown` and `plantuml_entity`).  Python strings are modelled by Lean
`String`; Python's single-character `str.replace` calls are modelled by an
explicit character-wise map; Python's stable `list.sort(key=k, reverse=True)`
on a Bool-valued key is modelled by its denotation, a stable partition.
Failure of the metadata source to resolve a column's physical type
(`django_field.db_type(connection)` returning no type) is modelled by an
`Option` and surfaces as an `Except.error`, following the spec's
`UnsupportedSchemaError` contract.
-/

namespace DjangoUtilities

/-- Concatenation of a list of strings, in order.  Models the Python pattern
of building an output string by repeated `+=` in a loop. -/
def strJoin : List String → String
  | [] => ""
  | s :: rest => s ++ strJoin rest

/-- Python `s.replace(pat, repl)` for a single-character pattern `pat`:
every occurrence of the character `pat` in `s` is replaced by the string
`repl`, all other characters are kept.  The source uses exactly three such
calls: `.replace(' ', '')`, `.replace('_', ' ')` and `.replace(",", ", ")`. -/
def pyReplaceChar (pat : Char) (repl : String) (s : String) : String :=
  strJoin (s.data.map (fun a => if a = pat then repl else String.singleton a))

/-- Python `",".join(parts)`: parts interleaved with a comma. -/
def pyJoinComma : List String → String
  | [] => ""
  | [s] => s
  | s :: rest => s ++ "," ++ pyJoinComma rest

/-- Python `s.upper()`: every character uppercased (the physical type
strings this is applied to are ASCII). -/
def pyUpper (s : String) : String :=
  (s.data.map Char.toUpper).asString

/-- Raw metadata of one Django model field, as read by
`ModelDescriptor._load` from `meta.fields` and the connection.
`dbTypeRaw` is the physical type reported by
`django_field.db_type(connection)`; `none` models the metadata source being
unable to resolve the column's physical type.  `remoteField` models
`hasattr(django_field, 'remote_field') and django_field.remote_field is not
None`. -/
structure RawColumn where
  name : String
  dbTypeRaw : Option String
  verboseName : String
  primaryKey : Bool
  remoteField : Bool
  dbIndex : Bool
  unique : Bool
  choices : List String
deriving Repr, DecidableEq

/-- The `Field` named tuple of `model_descriptor.py`. -/
structure Field where
  name : String
  db_type : String
  description : String
  primary_key : Bool
  foreign_key : Bool
  choices : List String
deriving Repr, DecidableEq

/-- `Field.markdown_repr`: one markdown table row for the field. -/
def Field.markdown_repr (f : Field) : String :=
  "| " ++ f.name ++ " | " ++ (if f.primary_key then "PK, " else "")
    ++ (if f.foreign_key then "FK, " else "") ++ f.db_type
    ++ " | " ++ f.description ++ " |\n"

/-- `Field.plantuml_entity_repr`: one PlantUML entity body line for the
field. -/
def Field.plantuml_entity_repr (f : Field) : String :=
  "\t" ++ f.name ++ ": " ++ (if f.primary_key then "PK, " else "")
    ++ (if f.foreign_key then "FK, " else "") ++ f.db_type ++ "\n"

/-- The per-table metadata snapshot consumed by `ModelDescriptor.__init__`:
the model's `_meta.db_table`, its docstring `model.__doc__`, the ordered
raw column list `meta.fields`, and the declared composite groups
`meta.index_together` and `meta.unique_together`. -/
structure ModelInput where
  dbTable : String
  modelDoc : String
  columns : List RawColumn
  indexTogether : List (List String)
  uniqueTogether : List (List String)
deriving Repr, DecidableEq

/-- Modelled from the spec: `UnsupportedSchemaError`, the failure surfaced
when the metadata source cannot resolve a column's physical type.  The
source under `src/` delegates type resolution to the (out-of-scope) metadata
source and propagates its failure without catching it. -/
structure UnsupportedSchemaError where
  columnName : String
deriving Repr, DecidableEq

/-- The normalized model held by a constructed `ModelDescriptor`:
`_meta.db_table`, `_model_description`, `_fields`, `_db_indexes` and
`_unique_constraints`. -/
structure ModelDescriptor where
  dbTable : String
  modelDescription : String
  fields : List Field
  dbIndexes : List String
  uniqueConstraints : List String
deriving Repr, DecidableEq

/-- Construction of one `Field` from one raw column with already-resolved
physical type `t` (`_load`, loop body): the description is the verbose name
unless that equals the column name with underscores replaced by spaces, in
which case it is empty. -/
def mkField (c : RawColumn) (t : String) : Field :=
  { name := c.name
    db_type := t
    description :=
      if c.verboseName = pyReplaceChar '_' (" ") c.name then "" else c.verboseName
    primary_key := c.primaryKey
    foreign_key := c.remoteField
    choices := c.choices }

/-- Resolution of one column: `django_field.db_type(connection).upper()`.
An unresolvable physical type aborts with `UnsupportedSchemaError`. -/
def resolveField (c : RawColumn) : Except UnsupportedSchemaError Field :=
  match c.dbTypeRaw with
  | none => Except.error ⟨c.name⟩
  | some t => Except.ok (mkField c (pyUpper t))

/-- The field-construction loop of `_load`, in column order; the first
unresolvable column aborts the whole build. -/
def buildFields : List RawColumn → Except UnsupportedSchemaError (List Field)
  | [] => Except.ok []
  | c :: rest =>
    match resolveField c with
    | Except.error e => Except.error e
    | Except.ok f =>
      match buildFields rest with
      | Except.error e => Except.error e
      | Except.ok fs => Except.ok (f :: fs)

/-- Denotation of Python's stable `list.sort(key=k, reverse=True)` for a
Bool-valued key (used twice in `_load`): a stable descending sort by a
Boolean key puts exactly the elements with `k = true` first, and within each
of the two groups preserves the pre-sort order — i.e. it is the stable
partition by `k`.  (Python's `sort` is documented stable, also under
`reverse=True`.) -/
def sortByBoolKeyDesc (k : α → Bool) (l : List α) : List α :=
  l.filter k ++ l.filter (fun x => !(k x))

/-- The two-pass sort of `_load`:
`self._fields.sort(key=lambda x: x.foreign_key, reverse=True)` followed by
`self._fields.sort(key=lambda x: x.primary_key, reverse=True)`. -/
def normalizeOrder (fs : List Field) : List Field :=
  sortByBoolKeyDesc (fun f => f.primary_key)
    (sortByBoolKeyDesc (fun f => f.foreign_key) fs)

/-- The single-column index collection of `_load`'s loop: non-primary-key
columns with `db_index`, in column order. -/
def singleIndexes (cols : List RawColumn) : List String :=
  (cols.filter (fun c => !c.primaryKey && c.dbIndex)).map (fun c => c.name)

/-- The single-column uniqueness collection of `_load`'s loop:
non-primary-key columns with `unique`, in column order. -/
def singleUniques (cols : List RawColumn) : List String :=
  (cols.filter (fun c => !c.primaryKey && c.unique)).map (fun c => c.name)

/-- `ModelDescriptor.__init__` followed by `_load`: normalization of one
table's metadata snapshot.  The model description is
`model.__doc__.replace(' ', '').replace('\n', '')`; the fields are the
two-pass-sorted constructed fields; the index and uniqueness lists are the
single-column collections followed by the comma-joined composite groups. -/
def build (inp : ModelInput) : Except UnsupportedSchemaError ModelDescriptor :=
  match buildFields inp.columns with
  | Except.error e => Except.error e
  | Except.ok fs =>
    Except.ok
      { dbTable := inp.dbTable
        modelDescription :=
          pyReplaceChar '\n' ("") (pyReplaceChar ' ' ("") inp.modelDoc)
        fields := normalizeOrder fs
        dbIndexes := singleIndexes inp.columns ++ inp.indexTogether.map pyJoinComma
        uniqueConstraints :=
          singleUniques inp.columns ++ inp.uniqueTogether.map pyJoinComma }

/-- One `| index | ... | |` row of the additional-info table
(`markdown`, first row loop): the stored value with each comma expanded to
comma-space. -/
def mkIndexRow (s : String) : String :=
  "| index | " ++ pyReplaceChar ',' (", ") s ++ " | |\n"

/-- One `| unique | ... | |` row of the additional-info table
(`markdown`, second row loop). -/
def mkUniqueRow (s : String) : String :=
  "| unique | " ++ pyReplaceChar ',' (", ") s ++ " | |\n"

/-- `ModelDescriptor.markdown`: heading, description, schema table with one
row per field in model order, then the additional-info table with all index
rows followed by all uniqueness rows. -/
def markdown (d : ModelDescriptor) : String :=
  "## " ++ d.dbTable ++ "\n" ++ d.modelDescription
    ++ "\n\n#### schema\n| field_name | type | description |\n|---|---|---|\n"
    ++ strJoin (d.fields.map Field.markdown_repr)
    ++ "\n\n#### additional info\n| type | value | description |\n|---|---|---|\n"
    ++ strJoin (d.dbIndexes.map mkIndexRow)
    ++ strJoin (d.uniqueConstraints.map mkUniqueRow)

/-- A field is a key field when it is a primary or a foreign key
(`f.primary_key or f.foreign_key`). -/
def isKey (f : Field) : Bool := f.primary_key || f.foreign_key

/-- The first loop of `plantuml_entity`: running over the fields with index
`i` and accumulator `acc`, remember the last index carrying a key field. -/
def lastKeyIndexAux : Nat → Option Nat → List Field → Option Nat
  | _, acc, [] => acc
  | i, acc, f :: rest =>
    lastKeyIndexAux (i + 1) (if isKey f then some i else acc) rest

/-- `last_primary_or_foreign_key_index` as computed by `plantuml_entity`. -/
def lastKeyIndex (fs : List Field) : Option Nat :=
  lastKeyIndexAux 0 none fs

/-- The body lines emitted by the second loop of `plantuml_entity`, starting
at index `i`: each field's entity line, followed by the `\t--\n` separator
exactly when the field's index equals `last` (in the source,
`i == last_primary_or_foreign_key_index`; the `i is not None` guard is
vacuous since `i` ranges over `enumerate` indices). -/
def bodyLines (last : Option Nat) : Nat → List Field → List String
  | _, [] => []
  | i, f :: rest =>
    [f.plantuml_entity_repr]
      ++ (if last = some i then ["\t--\n"] else [])
      ++ bodyLines last (i + 1) rest

/-- `ModelDescriptor.plantuml_entity`: the entity header, the body lines,
and the closing brace. -/
def plantuml_entity (d : ModelDescriptor) : String :=
  "entity " ++ d.dbTable ++ " \x7b\n"
    ++ strJoin (bodyLines (lastKeyIndex d.fields) 0 d.fields)
    ++ "\x7d\n"

/-- Modelled from the spec (for the refinement comparison of the
`table_description` claim): the source text with ALL whitespace and line
breaks removed. -/
def specDescriptionAllWhitespaceRemoved (s : String) : String :=
  (s.data.filter (fun c => !c.isWhitespace)).asString

/-- Agreement of two fields on every component except `choices`. -/
def FieldAgreesExceptChoices (f g : Field) : Prop :=
  f.name = g.name ∧ f.db_type = g.db_type ∧ f.description = g.description
    ∧ f.primary_key = g.primary_key ∧ f.foreign_key = g.foreign_key

/-! ## Concrete metadata snapshots used to exercise the theorems -/

/-- A primary-key column (`orders.id`, from the spec's running example). -/
def wId : RawColumn :=
  { name := "id", dbTypeRaw := some "BIGINT", verboseName := "id",
    primaryKey := true, remoteField := false, dbIndex := false, unique := false,
    choices := [] }

/-- A foreign-key, singly-indexed column (`orders.customer_id`). -/
def wCustomer : RawColumn :=
  { name := "customer_id", dbTypeRaw := some "BIGINT",
    verboseName := "customer id", primaryKey := false, remoteField := true,
    dbIndex := true, unique := false, choices := [] }

/-- A plain unique column with choices (`orders.status`). -/
def wStatus : RawColumn :=
  { name := "status", dbTypeRaw := some "VARCHAR(20)", verboseName := "status",
    primaryKey := false, remoteField := false, dbIndex := false, unique := true,
    choices := ["OPEN", "CLOSED"] }

/-- The `orders` snapshot, with the columns deliberately scattered so that
the two-pass sort has to move both key columns to the front. -/
def wInp : ModelInput :=
  { dbTable := "orders", modelDoc := "Customer order header",
    columns := [wStatus, wCustomer, wId],
    indexTogether := [["customer_id", "status"]], uniqueTogether := [] }

/-- The field list `buildFields wInp.columns` produces, in declaration
order. -/
def wFields : List Field :=
  [{ name := "status", db_type := "VARCHAR(20)", description := "",
     primary_key := false, foreign_key := false, choices := ["OPEN", "CLOSED"] },
   { name := "customer_id", db_type := "BIGINT", description := "",
     primary_key := false, foreign_key := true, choices := [] },
   { name := "id", db_type := "BIGINT", description := "",
     primary_key := true, foreign_key := false, choices := [] }]

/-- The normalized model `build wInp` produces. -/
def wModel : ModelDescriptor :=
  { dbTable := "orders", modelDescription := "Customerorderheader",
    fields :=
      [{ name := "id", db_type := "BIGINT", description := "",
         primary_key := true, foreign_key := false, choices := [] },
       { name := "customer_id", db_type := "BIGINT", description := "",
         primary_key := false, foreign_key := true, choices := [] },
       { name := "status", db_type := "VARCHAR(20)", description := "",
         primary_key := false, foreign_key := false,
         choices := ["OPEN", "CLOSED"] }],
    dbIndexes := ["customer_id", "customer_id,status"],
    uniqueConstraints := ["status"] }

/-- A column whose physical type the metadata source cannot resolve. -/
def wBroken : RawColumn :=
  { name := "payload", dbTypeRaw := none, verboseName := "payload",
    primaryKey := false, remoteField := false, dbIndex := false, unique := false,
    choices := [] }

/-- A snapshot containing the unresolvable column. -/
def wInpBroken : ModelInput :=
  { dbTable := "broken_tab", modelDoc := "d", columns := [wId, wBroken],
    indexTogether := [], uniqueTogether := [] }

/-- A snapshot whose docstring contains a tab character. -/
def wInpTab : ModelInput :=
  { dbTable := "tab_tab", modelDoc := "a\tb", columns := [],
    indexTogether := [], uniqueTogether := [] }

/-- The model built from `wInpTab`. -/
def wModelTab : ModelDescriptor :=
  { dbTable := "tab_tab", modelDescription := "a\tb", fields := [],
    dbIndexes := [], uniqueConstraints := [] }

/-- A column whose verbose label is empty while its name is not. -/
def wEmptyVerbose : RawColumn :=
  { name := "id", dbTypeRaw := some "INT", verboseName := "",
    primaryKey := true, remoteField := false, dbIndex := false, unique := false,
    choices := [] }

/-- A model with no fields at all. -/
def wModelEmpty : ModelDescriptor :=
  { dbTable := "empty_tab", modelDescription := "deg", fields := [],
    dbIndexes := ["a,b"], uniqueConstraints := ["c"] }

/-- `wModel` with different `choices` on the `status` field and on the
`customer_id` field, agreeing with `wModel` everywhere else. -/
def wModelChoices : ModelDescriptor :=
  { dbTable := "orders", modelDescription := "Customerorderheader",
    fields :=
      [{ name := "id", db_type := "BIGINT", description := "",
         primary_key := true, foreign_key := false, choices := [] },
       { name := "customer_id", db_type := "BIGINT", description := "",
         primary_key := false, foreign_key := true, choices := ["A"] },
       { name := "status", db_type := "VARCHAR(20)", description := "",
         primary_key := false, foreign_key := false, choices := [] }],
    dbIndexes := ["customer_id", "customer_id,status"],
    uniqueConstraints := ["status"] }

/-! ## General lemmas about the embedded operations -/

theorem strJoin_append (a b : List String) :
    strJoin (a ++ b) = strJoin a ++ strJoin b := by
  induction a with
  | nil => simp [strJoin]
  | cons s rest ih => simp [strJoin, ih, String.append_assoc]

theorem strJoin_data (l : List String) :
    (strJoin l).data = (l.map String.data).flatten := by
  induction l with
  | nil => rfl
  | cons s rest ih => simp [strJoin, String.data_append, ih]

theorem asString_data (s : String) : s.data.asString = s := rfl

theorem data_asString (l : List Char) : l.asString.data = l := rfl

theorem singleton_data (a : Char) : (String.singleton a).data = [a] := rfl

theorem pyReplaceChar_append (p : Char) (r : String) (s t : String) :
    pyReplaceChar p r (s ++ t) = pyReplaceChar p r s ++ pyReplaceChar p r t := by
  simp [pyReplaceChar, String.data_append, strJoin_append]

theorem strJoin_map_singleton (l : List Char) :
    strJoin (l.map String.singleton) = l.asString := by
  apply String.ext
  rw [strJoin_data, data_asString]
  induction l with
  | nil => rfl
  | cons a rest ih => simp_all [singleton_data]

theorem pyReplaceChar_of_no_occurrence (p : Char) (r : String) (s : String)
    (h : p ∉ s.data) : pyReplaceChar p r s = s := by
  unfold pyReplaceChar
  have hmap : s.data.map (fun a => if a = p then r else String.singleton a)
      = s.data.map String.singleton :=
    List.map_congr_left (fun a ha => if_neg (fun he => h (by rw [← he]; exact ha)))
  rw [hmap, strJoin_map_singleton, asString_data]

theorem pyReplaceChar_delete (p : Char) (s : String) :
    pyReplaceChar p ("") s = (s.data.filter (fun c => !(c == p))).asString := by
  apply String.ext
  rw [pyReplaceChar, strJoin_data, data_asString]
  induction s.data with
  | nil => rfl
  | cons a rest ih =>
    by_cases ha : a = p <;> simp_all [singleton_data]

/-! ## Lemmas about the field-construction loop -/

theorem buildFields_ok_forall₂ {cols : List RawColumn} {fs : List Field}
    (h : buildFields cols = Except.ok fs) :
    List.Forall₂ (fun c f => ∃ t, c.dbTypeRaw = some t ∧ f = mkField c (pyUpper t))
      cols fs := by
  induction cols generalizing fs with
  | nil =>
    simp only [buildFields] at h
    cases h
    exact List.Forall₂.nil
  | cons c rest ih =>
    cases hc : c.dbTypeRaw with
    | none => simp [buildFields, resolveField, hc] at h
    | some t =>
      cases hb : buildFields rest with
      | error e => simp [buildFields, resolveField, hc, hb] at h
      | ok fs0 =>
        simp only [buildFields, resolveField, hc, hb] at h
        cases h
        exact List.Forall₂.cons ⟨t, hc, rfl⟩ (ih hb)

theorem buildFields_error_of_none {cols : List RawColumn} {c : RawColumn}
    (hc : c ∈ cols) (hn : c.dbTypeRaw = none) :
    ∃ e : UnsupportedSchemaError, buildFields cols = Except.error e := by
  induction cols with
  | nil => cases hc
  | cons a rest ih =>
    rcases List.mem_cons.mp hc with he | hmem
    · subst he
      exact ⟨⟨c.name⟩, by simp [buildFields, resolveField, hn]⟩
    · cases ha : a.dbTypeRaw with
      | none => exact ⟨⟨a.name⟩, by simp [buildFields, resolveField, ha]⟩
      | some t =>
        obtain ⟨e, he⟩ := ih hmem
        exact ⟨e, by simp [buildFields, resolveField, ha, he]⟩

theorem build_ok_elim {inp : ModelInput} {d : ModelDescriptor}
    (h : build inp = Except.ok d) :
    ∃ fs0, buildFields inp.columns = Except.ok fs0
      ∧ d.dbTable = inp.dbTable
      ∧ d.modelDescription
          = pyReplaceChar '\n' ("") (pyReplaceChar ' ' ("") inp.modelDoc)
      ∧ d.fields = normalizeOrder fs0
      ∧ d.dbIndexes = singleIndexes inp.columns ++ inp.indexTogether.map pyJoinComma
      ∧ d.uniqueConstraints
          = singleUniques inp.columns ++ inp.uniqueTogether.map pyJoinComma := by
  unfold build at h
  cases hb : buildFields inp.columns with
  | error e => rw [hb] at h; cases h
  | ok fs0 =>
    rw [hb] at h
    cases h
    exact ⟨fs0, rfl, rfl, rfl, rfl, rfl, rfl⟩

/-! ## Lemmas about the two-pass stable sort -/

theorem normalizeOrder_eq (fs : List Field) :
    normalizeOrder fs =
      fs.filter (fun f => f.primary_key && f.foreign_key)
        ++ (fs.filter (fun f => f.primary_key && !f.foreign_key)
          ++ (fs.filter (fun f => !f.primary_key && f.foreign_key)
            ++ fs.filter (fun f => !f.primary_key && !f.foreign_key))) := by
  simp [normalizeOrder, sortByBoolKeyDesc, List.filter_append, List.filter_filter,
    List.append_assoc, Bool.and_comm]

theorem flags_of_mem_tt {fs0 : List Field} {x : Field}
    (h : x ∈ fs0.filter (fun f => f.primary_key && f.foreign_key)) :
    x.primary_key = true ∧ x.foreign_key = true := by
  have := (List.mem_filter.mp h).2
  simpa using this

theorem flags_of_mem_tf {fs0 : List Field} {x : Field}
    (h : x ∈ fs0.filter (fun f => f.primary_key && !f.foreign_key)) :
    x.primary_key = true ∧ x.foreign_key = false := by
  have := (List.mem_filter.mp h).2
  simpa using this

theorem flags_of_mem_ft {fs0 : List Field} {x : Field}
    (h : x ∈ fs0.filter (fun f => !f.primary_key && f.foreign_key)) :
    x.primary_key = false ∧ x.foreign_key = true := by
  have := (List.mem_filter.mp h).2
  simpa using this

theorem flags_of_mem_ff {fs0 : List Field} {x : Field}
    (h : x ∈ fs0.filter (fun f => !f.primary_key && !f.foreign_key)) :
    x.primary_key = false ∧ x.foreign_key = false := by
  have := (List.mem_filter.mp h).2
  simpa using this

theorem normalizeOrder_pairwise (fs0 : List Field) :
    (normalizeOrder fs0).Pairwise (fun a b =>
      (b.primary_key = true → a.primary_key = true) ∧
      (a.primary_key = false → b.primary_key = false → b.foreign_key = true →
        a.foreign_key = true)) := by
  rw [normalizeOrder_eq]
  refine List.pairwise_append.mpr ⟨?_, List.pairwise_append.mpr
      ⟨?_, List.pairwise_append.mpr ⟨?_, ?_, ?_⟩, ?_⟩, ?_⟩
  · exact List.pairwise_of_forall_mem_list (fun a ha b hb =>
      ⟨fun _ => (flags_of_mem_tt ha).1,
       fun hpa _ _ => absurd (flags_of_mem_tt ha).1 (by simp [hpa])⟩)
  · exact List.pairwise_of_forall_mem_list (fun a ha b hb =>
      ⟨fun _ => (flags_of_mem_tf ha).1,
       fun hpa _ _ => absurd (flags_of_mem_tf ha).1 (by simp [hpa])⟩)
  · exact List.pairwise_of_forall_mem_list (fun a ha b hb =>
      ⟨fun hpb => absurd hpb (by simp [(flags_of_mem_ft hb).1]),
       fun _ _ _ => (flags_of_mem_ft ha).2⟩)
  · exact List.pairwise_of_forall_mem_list (fun a ha b hb =>
      ⟨fun hpb => absurd hpb (by simp [(flags_of_mem_ff hb).1]),
       fun _ _ hfb => absurd hfb (by simp [(flags_of_mem_ff hb).2])⟩)
  · exact fun a ha b hb =>
      ⟨fun hpb => absurd hpb (by simp [(flags_of_mem_ff hb).1]),
       fun _ _ _ => (flags_of_mem_ft ha).2⟩
  · exact fun a ha b hb =>
      ⟨fun _ => (flags_of_mem_tf ha).1,
       fun hpa _ _ => absurd (flags_of_mem_tf ha).1 (by simp [hpa])⟩
  · exact fun a ha b hb =>
      ⟨fun _ => (flags_of_mem_tt ha).1,
       fun hpa _ _ => absurd (flags_of_mem_tt ha).1 (by simp [hpa])⟩

theorem filter_fields_nil (fs0 : List Field) (π : Field → Bool)
    (h : ∀ x : Field, π x = false) : fs0.filter π = [] :=
  List.filter_eq_nil_iff.mpr (fun x _ => by simp [h x])

theorem filter_fields_congr (fs0 : List Field) (π ρ : Field → Bool)
    (h : ∀ x : Field, π x = ρ x) : fs0.filter π = fs0.filter ρ :=
  List.filter_congr (fun x _ => h x)

theorem normalizeOrder_filter_flags (fs0 : List Field) (p f : Bool) :
    (normalizeOrder fs0).filter (fun x => x.primary_key == p && x.foreign_key == f)
      = fs0.filter (fun x => x.primary_key == p && x.foreign_key == f) := by
  rw [normalizeOrder_eq]
  simp only [List.filter_append, List.filter_filter]
  rw [filter_fields_congr fs0
        (fun a => ((a.primary_key == p && a.foreign_key == f))
          && (a.primary_key && a.foreign_key))
        (fun a => (a.primary_key == p && a.foreign_key == f)
          && ((p == true) && (f == true)))
        (fun x => by cases h1 : x.primary_key <;> cases h2 : x.foreign_key <;>
          cases p <;> cases f <;> simp [h1, h2]),
      filter_fields_congr fs0
        (fun a => ((a.primary_key == p && a.foreign_key == f))
          && (a.primary_key && !a.foreign_key))
        (fun a => (a.primary_key == p && a.foreign_key == f)
          && ((p == true) && (f == false)))
        (fun x => by cases h1 : x.primary_key <;> cases h2 : x.foreign_key <;>
          cases p <;> cases f <;> simp [h1, h2]),
      filter_fields_congr fs0
        (fun a => ((a.primary_key == p && a.foreign_key == f))
          && (!a.primary_key && a.foreign_key))
        (fun a => (a.primary_key == p && a.foreign_key == f)
          && ((p == false) && (f == true)))
        (fun x => by cases h1 : x.primary_key <;> cases h2 : x.foreign_key <;>
          cases p <;> cases f <;> simp [h1, h2]),
      filter_fields_congr fs0
        (fun a => ((a.primary_key == p && a.foreign_key == f))
          && (!a.primary_key && !a.foreign_key))
        (fun a => (a.primary_key == p && a.foreign_key == f)
          && ((p == false) && (f == false)))
        (fun x => by cases h1 : x.primary_key <;> cases h2 : x.foreign_key <;>
          cases p <;> cases f <;> simp [h1, h2])]
  cases p <;> cases f <;> simp

/-! ## Lemmas about the `plantuml_entity` loops -/

theorem lastKeyIndexAux_append (l₁ l₂ : List Field) :
    ∀ (i : Nat) (acc : Option Nat),
      lastKeyIndexAux i acc (l₁ ++ l₂)
        = lastKeyIndexAux (i + l₁.length) (lastKeyIndexAux i acc l₁) l₂ := by
  induction l₁ with
  | nil => intro i acc; simp [lastKeyIndexAux]
  | cons g rest ih =>
    intro i acc
    simp only [List.cons_append, lastKeyIndexAux, List.length_cons, List.append_eq]
    rw [ih]
    congr 1
    omega

theorem lastKeyIndexAux_no_key (l : List Field) :
    ∀ (i : Nat) (acc : Option Nat), (∀ f ∈ l, isKey f = false) →
      lastKeyIndexAux i acc l = acc := by
  induction l with
  | nil => intro i acc _; rfl
  | cons g rest ih =>
    intro i acc h
    have hg : isKey g = false := h g (List.mem_cons_self g rest)
    simp only [lastKeyIndexAux, hg, if_false]
    exact ih (i + 1) acc (fun f hf => h f (List.mem_cons_of_mem _ hf))

theorem lastKeyIndexAux_all_key (l : List Field) :
    ∀ (i : Nat) (acc : Option Nat), l ≠ [] → (∀ f ∈ l, isKey f = true) →
      lastKeyIndexAux i acc l = some (i + l.length - 1) := by
  induction l with
  | nil => intro i acc hne _; exact absurd rfl hne
  | cons g rest ih =>
    intro i acc hne h
    have hg : isKey g = true := h g (List.mem_cons_self g rest)
    by_cases hrn : rest = []
    · subst hrn
      simp [lastKeyIndexAux, hg]
    · have hrest : ∀ f ∈ rest, isKey f = true :=
        fun f hf => h f (List.mem_cons_of_mem _ hf)
      simp only [lastKeyIndexAux, hg, if_true, List.length_cons]
      rw [ih (i + 1) (some i) hrn hrest]
      congr 1
      have : 1 ≤ rest.length := List.length_pos.mpr hrn
      omega

theorem bodyLines_append (last : Option Nat) (l₁ l₂ : List Field) :
    ∀ i : Nat, bodyLines last i (l₁ ++ l₂)
      = bodyLines last i l₁ ++ bodyLines last (i + l₁.length) l₂ := by
  induction l₁ with
  | nil => intro i; simp [bodyLines]
  | cons g rest ih =>
    intro i
    simp only [List.cons_append, bodyLines, List.length_cons, List.append_assoc,
      List.append_eq]
    rw [ih (i + 1)]
    have : i + 1 + rest.length = i + (rest.length + 1) := by omega
    rw [this]

theorem bodyLines_no_sep (l : List Field) :
    ∀ (last : Option Nat) (i : Nat), (∀ j, last = some j → j < i) →
      bodyLines last i l = l.map Field.plantuml_entity_repr := by
  induction l with
  | nil => intro last i _; rfl
  | cons g rest ih =>
    intro last i h
    have hcond : ¬(last = some i) := fun he => Nat.lt_irrefl i (h i he)
    simp only [bodyLines, hcond, if_false, List.map_cons]
    rw [ih last (i + 1) (fun j hj => Nat.lt_succ_of_lt (h j hj))]
    simp

theorem bodyLines_sep_at_end (l : List Field) :
    ∀ i : Nat, l ≠ [] →
      bodyLines (some (i + l.length - 1)) i l
        = l.map Field.plantuml_entity_repr ++ [("\t--\n" : String)] := by
  induction l with
  | nil => intro i hne; exact absurd rfl hne
  | cons g rest ih =>
    intro i hne
    by_cases hrn : rest = []
    · subst hrn
      simp [bodyLines]
    · have hpos : 1 ≤ rest.length := List.length_pos.mpr hrn
      have hif : ¬((some (i + (g :: rest).length - 1) : Option Nat) = some i) := by
        intro hEq
        have h1 := Option.some.inj hEq
        simp only [List.length_cons] at h1
        omega
      simp only [bodyLines, hif, if_false, List.map_cons]
      have heq : i + (g :: rest).length - 1 = (i + 1) + rest.length - 1 := by
        simp only [List.length_cons]
        omega
      rw [heq, ih (i + 1) hrn]
      simp

theorem plantuml_repr_ne_sep (f : Field) :
    f.plantuml_entity_repr ≠ "\t--\n" := by
  intro h
  have hmem : ':' ∈ (f.plantuml_entity_repr).data := by
    unfold Field.plantuml_entity_repr
    simp only [String.data_append]
    exact List.mem_append_left _ (List.mem_append_left _ (List.mem_append_left _
      (List.mem_append_left _ (List.mem_append_right _ (by decide)))))
  rw [h] at hmem
  exact absurd hmem (by decide)

theorem normalizeOrder_key_split (fs0 : List Field) :
    ∃ K N : List Field,
      normalizeOrder fs0 = K ++ N
      ∧ (∀ x ∈ K, isKey x = true)
      ∧ (∀ x ∈ N, isKey x = false) := by
  refine ⟨fs0.filter (fun f => f.primary_key && f.foreign_key)
      ++ (fs0.filter (fun f => f.primary_key && !f.foreign_key)
        ++ fs0.filter (fun f => !f.primary_key && f.foreign_key)),
    fs0.filter (fun f => !f.primary_key && !f.foreign_key), ?_, ?_, ?_⟩
  · rw [normalizeOrder_eq]
    simp [List.append_assoc]
  · intro x hx
    rcases List.mem_append.mp hx with h1 | h23
    · unfold isKey
      simp [(flags_of_mem_tt h1).1]
    · rcases List.mem_append.mp h23 with h2 | h3
      · unfold isKey
        simp [(flags_of_mem_tf h2).1]
      · unfold isKey
        simp [(flags_of_mem_ft h3).2]
  · intro x hx
    obtain ⟨h1, h2⟩ := flags_of_mem_ff hx
    unfold isKey
    simp [h1, h2]

/-! ## Congruence of the renderers in everything but `choices` -/

theorem markdown_repr_congr {f g : Field} (h : FieldAgreesExceptChoices f g) :
    f.markdown_repr = g.markdown_repr := by
  obtain ⟨h1, h2, h3, h4, h5⟩ := h
  unfold Field.markdown_repr
  rw [h1, h2, h3, h4, h5]

theorem plantuml_repr_congr {f g : Field} (h : FieldAgreesExceptChoices f g) :
    f.plantuml_entity_repr = g.plantuml_entity_repr := by
  obtain ⟨h1, h2, h3, h4, h5⟩ := h
  unfold Field.plantuml_entity_repr
  rw [h1, h2, h4, h5]

theorem isKey_congr {f g : Field} (h : FieldAgreesExceptChoices f g) :
    isKey f = isKey g := by
  obtain ⟨_, _, _, h4, h5⟩ := h
  unfold isKey
  rw [h4, h5]

theorem map_markdown_repr_congr {l1 l2 : List Field}
    (h : List.Forall₂ FieldAgreesExceptChoices l1 l2) :
    l1.map Field.markdown_repr = l2.map Field.markdown_repr := by
  induction h with
  | nil => rfl
  | cons hfg _ ih => simp [markdown_repr_congr hfg, ih]

theorem lastKeyIndexAux_congr {l1 l2 : List Field}
    (h : List.Forall₂ FieldAgreesExceptChoices l1 l2) :
    ∀ (i : Nat) (acc : Option Nat),
      lastKeyIndexAux i acc l1 = lastKeyIndexAux i acc l2 := by
  induction h with
  | nil => intro i acc; rfl
  | cons hfg _ ih =>
    intro i acc
    simp only [lastKeyIndexAux, isKey_congr hfg]
    exact ih _ _

theorem bodyLines_congr {l1 l2 : List Field}
    (h : List.Forall₂ FieldAgreesExceptChoices l1 l2) (last : Option Nat) :
    ∀ i : Nat, bodyLines last i l1 = bodyLines last i l2 := by
  induction h with
  | nil => intro i; rfl
  | cons hfg _ ih =>
    intro i
    simp only [bodyLines, plantuml_repr_congr hfg]
    rw [ih]

/-! ## The claims -/

/-- C1: for every input column sequence, after normalization the ordered
field list puts every primary-key field before every non-primary-key field;
within the non-primary-key group every foreign-key field precedes every
non-foreign-key field; and within any tie group (same primary-key and
foreign-key flags) the relative input declaration order — the order of
`fs0`, the fields as constructed column by column — is preserved. -/
theorem c1_normalized_field_ordering (inp : ModelInput) (d : ModelDescriptor)
    (fs0 : List Field) (hfs : buildFields inp.columns = Except.ok fs0)
    (h : build inp = Except.ok d) :
    d.fields.Pairwise (fun a b =>
      (b.primary_key = true → a.primary_key = true) ∧
      (a.primary_key = false → b.primary_key = false → b.foreign_key = true →
        a.foreign_key = true))
    ∧ ∀ p f : Bool,
        d.fields.filter (fun x => x.primary_key == p && x.foreign_key == f)
          = fs0.filter (fun x => x.primary_key == p && x.foreign_key == f) := by
  obtain ⟨fs1, hb1, _, _, hf, _, _⟩ := build_ok_elim h
  have hfs1 : fs1 = fs0 := by
    rw [hb1] at hfs
    exact Except.ok.inj hfs
  subst hfs1
  constructor
  · rw [hf]
    exact normalizeOrder_pairwise fs1
  · intro p f
    rw [hf]
    exact normalizeOrder_filter_flags fs1 p f

/-- C2: for every normalized model, the diagram body consists of exactly the
key fields' lines, then — when at least one key field exists — a single
`--` separator line, then the non-key fields' lines: the number of field
lines before the separator equals the number of fields that are primary or
foreign keys, no separator is emitted when that number is zero, and at most
one separator line is emitted in any case. -/
theorem c2_separator_placement (inp : ModelInput) (d : ModelDescriptor)
    (h : build inp = Except.ok d) :
    ((d.fields.filter isKey).length = 0 →
      bodyLines (lastKeyIndex d.fields) 0 d.fields
          = d.fields.map Field.plantuml_entity_repr
        ∧ (bodyLines (lastKeyIndex d.fields) 0 d.fields).count ("\t--\n") = 0)
    ∧ (0 < (d.fields.filter isKey).length →
      bodyLines (lastKeyIndex d.fields) 0 d.fields
          = (d.fields.take (d.fields.filter isKey).length).map
              Field.plantuml_entity_repr
            ++ ([("\t--\n" : String)]
              ++ (d.fields.drop (d.fields.filter isKey).length).map
                  Field.plantuml_entity_repr)
        ∧ ((d.fields.take (d.fields.filter isKey).length).map
            Field.plantuml_entity_repr).length = (d.fields.filter isKey).length
        ∧ (bodyLines (lastKeyIndex d.fields) 0 d.fields).count ("\t--\n") = 1)
    ∧ plantuml_entity d
        = "entity " ++ d.dbTable ++ (" \x7b\n")
          ++ strJoin (bodyLines (lastKeyIndex d.fields) 0 d.fields)
          ++ ("\x7d\n") := by
  obtain ⟨fs0, hb, _, _, hf, _, _⟩ := build_ok_elim h
  obtain ⟨K, N, hKN, hK, hN⟩ := normalizeOrder_key_split fs0
  have hDF : d.fields = K ++ N := by rw [hf, hKN]
  have hfilter : d.fields.filter isKey = K := by
    rw [hDF, List.filter_append, List.filter_eq_self.mpr hK,
      List.filter_eq_nil_iff.mpr (fun x hx => by simp [hN x hx]), List.append_nil]
  have hLast : lastKeyIndex d.fields = lastKeyIndexAux 0 none K := by
    rw [hDF]
    unfold lastKeyIndex
    rw [lastKeyIndexAux_append K N 0 none]
    exact lastKeyIndexAux_no_key N (0 + K.length) _ hN
  have hcount0 : ∀ l : List Field,
      (l.map Field.plantuml_entity_repr).count ("\t--\n") = 0 := by
    intro l
    apply List.count_eq_zero.mpr
    intro hmem
    obtain ⟨g, _, hgr⟩ := List.mem_map.mp hmem
    exact plantuml_repr_ne_sep g hgr
  by_cases hK0 : K = []
  · have hLastN : lastKeyIndex d.fields = none := by
      rw [hLast, hK0]
      rfl
    refine ⟨?_, ?_, rfl⟩
    · intro _
      rw [hLastN, bodyLines_no_sep d.fields none 0 (fun j hj => nomatch hj)]
      exact ⟨rfl, hcount0 d.fields⟩
    · intro hpos
      rw [hfilter, hK0] at hpos
      exact absurd hpos (by simp)
  · have hKpos : 0 < K.length := List.length_pos.mpr hK0
    have hLastS : lastKeyIndex d.fields = some (K.length - 1) := by
      rw [hLast, lastKeyIndexAux_all_key K 0 none hK0 hK]
      congr 1
      omega
    have hbody : bodyLines (lastKeyIndex d.fields) 0 d.fields
        = K.map Field.plantuml_entity_repr
          ++ ([("\t--\n" : String)] ++ N.map Field.plantuml_entity_repr) := by
      rw [hLastS, hDF]
      have h0 : (K.length - 1) = 0 + K.length - 1 := by omega
      rw [h0, bodyLines_append (some (0 + K.length - 1)) K N 0,
        bodyLines_sep_at_end K 0 hK0]
      have hn2 := bodyLines_no_sep N (some (0 + K.length - 1)) (0 + K.length)
        (fun j hj => by
          have hje := Option.some.inj hj
          omega)
      rw [hn2]
      simp [List.append_assoc]
    refine ⟨?_, ?_, rfl⟩
    · intro h0
      rw [hfilter] at h0
      omega
    · intro _
      refine ⟨?_, ?_, ?_⟩
      · rw [hbody, hfilter, hDF, List.take_left, List.drop_left]
      · rw [hfilter, hDF, List.take_left, List.length_map]
      · rw [hbody, List.count_append, List.count_append, hcount0 K, hcount0 N]
        rfl

/-- C3: when the metadata source cannot resolve a column's physical type,
normalization fails with an `UnsupportedSchemaError` that is propagated, and
no (partial) model is produced for that table. -/
theorem c3_unresolved_type_aborts (inp : ModelInput) (c : RawColumn)
    (hc : c ∈ inp.columns) (hn : c.dbTypeRaw = none) :
    ∃ e : UnsupportedSchemaError, build inp = Except.error e
      ∧ ∀ d : ModelDescriptor, build inp ≠ Except.ok d := by
  obtain ⟨e, he⟩ := buildFields_error_of_none hc hn
  refine ⟨e, ?_, ?_⟩
  · simp [build, he]
  · intro d
    simp [build, he]

/-- C4 counterexample: the construction removes only space and newline
characters from the docstring, so a tab character survives, contradicting
"all whitespace removed" at the concrete input `wInpTab`. -/
theorem c4_whitespace_counterexample :
    build wInpTab = Except.ok wModelTab
    ∧ wModelTab.modelDescription = "a\tb"
    ∧ specDescriptionAllWhitespaceRemoved wInpTab.modelDoc = "ab"
    ∧ wModelTab.modelDescription
        ≠ specDescriptionAllWhitespaceRemoved wInpTab.modelDoc := by
  refine ⟨rfl, rfl, rfl, by decide⟩

/-- C4 (amended): for every input table description string, the normalized
`table_description` equals the source text with every space character and
every newline character removed (other whitespace, such as tabs, is
kept). -/
theorem c4_description_strip (inp : ModelInput) (d : ModelDescriptor)
    (h : build inp = Except.ok d) :
    d.modelDescription
      = (inp.modelDoc.data.filter (fun c => !(c == ' ' || c == '\n'))).asString := by
  obtain ⟨fs0, hb, ht, hdesc, _, _, _⟩ := build_ok_elim h
  rw [hdesc, pyReplaceChar_delete, pyReplaceChar_delete, data_asString,
    List.filter_filter]
  exact congrArg List.asString (List.filter_congr (fun x _ => by
    cases hx1 : x == ' ' <;> cases hx2 : x == '\n' <;> simp [hx1, hx2]))

/-- C5 counterexample: a column whose verbose label is empty but different
from the underscore-replaced name still gets an empty description, so "empty
exactly when the label equals the name with underscores replaced by spaces"
fails at the concrete column `wEmptyVerbose`. -/
theorem c5_description_counterexample :
    (mkField wEmptyVerbose ("INT")).description = ""
    ∧ wEmptyVerbose.verboseName
        ≠ pyReplaceChar '_' (" ") wEmptyVerbose.name := by
  refine ⟨rfl, by decide⟩

/-- C5 (amended): the normalized field's description is empty if the verbose
label equals the column name with underscores replaced by spaces, and is the
verbose label verbatim otherwise; consequently it is empty exactly when the
label equals the underscore-replaced name or the label itself is empty. -/
theorem c5_description_suppression (c : RawColumn) (t : String) :
    ((mkField c t).description = "" ↔
      (c.verboseName = pyReplaceChar '_' (" ") c.name ∨ c.verboseName = ""))
    ∧ (c.verboseName ≠ pyReplaceChar '_' (" ") c.name →
        (mkField c t).description = c.verboseName) := by
  unfold mkField
  by_cases hv : c.verboseName = pyReplaceChar '_' (" ") c.name
  · simp [hv]
  · simp [hv]

/-- C6: the markdown additional-info table lists, in order, every
single-column index then every composite index as `index` rows, then every
single-column uniqueness constraint then every composite uniqueness
constraint as `unique` rows; a composite entry renders its comma-joined
columns with a space after each comma, and a composite row over `[a, b]` is
one row with value `a, b`, distinct from the single-column rows for `a` and
for `b`. -/
theorem c6_additional_info_rows (inp : ModelInput) (d : ModelDescriptor)
    (h : build inp = Except.ok d) :
    markdown d
      = "## " ++ d.dbTable ++ "\n" ++ d.modelDescription
        ++ "\n\n#### schema\n| field_name | type | description |\n|---|---|---|\n"
        ++ strJoin (d.fields.map Field.markdown_repr)
        ++ "\n\n#### additional info\n| type | value | description |\n|---|---|---|\n"
        ++ strJoin ((singleIndexes inp.columns).map mkIndexRow)
        ++ strJoin ((inp.indexTogether.map pyJoinComma).map mkIndexRow)
        ++ strJoin ((singleUniques inp.columns).map mkUniqueRow)
        ++ strJoin ((inp.uniqueTogether.map pyJoinComma).map mkUniqueRow)
    ∧ ∀ a b : String, ',' ∉ a.data → ',' ∉ b.data →
        pyReplaceChar ',' (", ") (pyJoinComma [a, b]) = a ++ (", ") ++ b
        ∧ mkIndexRow (pyJoinComma [a, b]) ≠ mkIndexRow a
        ∧ mkIndexRow (pyJoinComma [a, b]) ≠ mkIndexRow b := by
  obtain ⟨fs0, hb, ht, hdesc, hff, hdbi, huniq⟩ := build_ok_elim h
  constructor
  · unfold markdown
    rw [hdbi, huniq, List.map_append, strJoin_append, List.map_append,
      strJoin_append]
    simp [String.append_assoc]
  · intro a b ha hb2
    have hjoin : pyJoinComma [a, b] = a ++ (",") ++ b := rfl
    have hvalue : pyReplaceChar ',' (", ") (pyJoinComma [a, b])
        = a ++ (", ") ++ b := by
      rw [hjoin, pyReplaceChar_append, pyReplaceChar_append,
        pyReplaceChar_of_no_occurrence ',' (", ") a ha,
        pyReplaceChar_of_no_occurrence ',' (", ") b hb2]
      rfl
    have hrow : mkIndexRow (pyJoinComma [a, b])
        = "| index | " ++ (a ++ (", ") ++ b) ++ (" | |\n") := by
      unfold mkIndexRow
      rw [hvalue]
    have hrowa : mkIndexRow a = "| index | " ++ a ++ (" | |\n") := by
      unfold mkIndexRow
      rw [pyReplaceChar_of_no_occurrence ',' (", ") a ha]
    have hrowb : mkIndexRow b = "| index | " ++ b ++ (" | |\n") := by
      unfold mkIndexRow
      rw [pyReplaceChar_of_no_occurrence ',' (", ") b hb2]
    have hlen2 : (", " : String).length = 2 := rfl
    refine ⟨hvalue, ?_, ?_⟩
    · intro hEq
      rw [hrow, hrowa] at hEq
      have hL := congrArg String.length hEq
      simp only [String.length_append, hlen2] at hL
      omega
    · intro hEq
      rw [hrow, hrowb] at hEq
      have hL := congrArg String.length hEq
      simp only [String.length_append, hlen2] at hL
      omega

/-- C7: a model with zero fields renders, in both markdown and diagram form,
a heading or entity block with an empty body rather than an error; the
renderers are total functions on any model and perform no validation. -/
theorem c7_empty_model_renders (d : ModelDescriptor) (h : d.fields = []) :
    plantuml_entity d = "entity " ++ d.dbTable ++ (" \x7b\n\x7d\n")
    ∧ markdown d
      = "## " ++ d.dbTable ++ "\n" ++ d.modelDescription
        ++ ("\n\n#### schema\n| field_name | type | description |\n|---|---|---|\n"
          ++ "\n\n#### additional info\n| type | value | description |\n|---|---|---|\n")
        ++ strJoin (d.dbIndexes.map mkIndexRow)
        ++ strJoin (d.uniqueConstraints.map mkUniqueRow) := by
  constructor
  · unfold plantuml_entity
    rw [h]
    rw [show strJoin (bodyLines (lastKeyIndex ([] : List Field)) 0 []) = ("" : String)
      from rfl]
    rw [String.append_empty, String.append_assoc]
    rw [show (" \x7b\n" : String) ++ ("\x7d\n") = (" \x7b\n\x7d\n" : String) from rfl]
  · unfold markdown
    rw [h]
    rw [show strJoin (([] : List Field).map Field.markdown_repr) = ("" : String)
      from rfl]
    rw [String.append_empty]
    simp [String.append_assoc]

/-- C8: both renderers are pure functions of the model: identical input
yields identical — indeed byte-identical — markdown and diagram output. -/
theorem c8_render_determinism (m1 m2 : ModelDescriptor) (h : m1 = m2) :
    markdown m1 = markdown m2 ∧ (markdown m1).data = (markdown m2).data
    ∧ plantuml_entity m1 = plantuml_entity m2
    ∧ (plantuml_entity m1).data = (plantuml_entity m2).data := by
  subst h
  exact ⟨rfl, rfl, rfl, rfl⟩

/-- C9: the `choices` component of a field is carried but never rendered:
two models agreeing on everything except the `choices` sequences of their
fields render to identical markdown and identical diagram output. -/
theorem c9_choices_not_rendered (d1 d2 : ModelDescriptor)
    (ht : d1.dbTable = d2.dbTable)
    (hd : d1.modelDescription = d2.modelDescription)
    (hi : d1.dbIndexes = d2.dbIndexes)
    (hu : d1.uniqueConstraints = d2.uniqueConstraints)
    (hf : List.Forall₂ FieldAgreesExceptChoices d1.fields d2.fields) :
    markdown d1 = markdown d2 ∧ plantuml_entity d1 = plantuml_entity d2 := by
  constructor
  · unfold markdown
    rw [ht, hd, hi, hu, map_markdown_repr_congr hf]
  · unfold plantuml_entity
    have hL : lastKeyIndex d1.fields = lastKeyIndex d2.fields :=
      lastKeyIndexAux_congr hf 0 none
    rw [ht, hL, bodyLines_congr hf (lastKeyIndex d2.fields) 0]

/-- C10: normalization neither drops nor duplicates columns: the ordered
field list of the constructed model is a permutation of the fields built
one-for-one (in order) from the raw columns, and its length equals the
number of input columns. -/
theorem c10_fields_permutation (inp : ModelInput) (d : ModelDescriptor)
    (h : build inp = Except.ok d) :
    ∃ fs0 : List Field,
      buildFields inp.columns = Except.ok fs0
      ∧ List.Forall₂ (fun c g => ∃ t, c.dbTypeRaw = some t ∧ g = mkField c (pyUpper t))
          inp.columns fs0
      ∧ d.fields.Perm fs0
      ∧ d.fields.length = inp.columns.length := by
  obtain ⟨fs0, hb, _, _, hf, _, _⟩ := build_ok_elim h
  have hperm : (normalizeOrder fs0).Perm fs0 := by
    unfold normalizeOrder sortByBoolKeyDesc
    exact (List.filter_append_perm _ _).trans (List.filter_append_perm _ _)
  have hfor := buildFields_ok_forall₂ hb
  refine ⟨fs0, hb, hfor, ?_, ?_⟩
  · rw [hf]
    exact hperm
  · rw [hf, hperm.length_eq]
    exact hfor.length_eq.symm

/-! ## Concrete witnesses for the claims with hypotheses -/

/-- C1 witness at the `orders` snapshot with scattered key columns. -/
theorem c1_witness :
    buildFields wInp.columns = Except.ok wFields
    ∧ build wInp = Except.ok wModel
    ∧ (wModel.fields.Pairwise (fun a b =>
        (b.primary_key = true → a.primary_key = true) ∧
        (a.primary_key = false → b.primary_key = false → b.foreign_key = true →
          a.foreign_key = true))
      ∧ ∀ p f : Bool,
          wModel.fields.filter (fun x => x.primary_key == p && x.foreign_key == f)
            = wFields.filter (fun x => x.primary_key == p && x.foreign_key == f)) :=
  ⟨rfl, rfl, c1_normalized_field_ordering wInp wModel wFields rfl rfl⟩

/-- C2 witness: in the rendered `orders` diagram the separator sits after
the two key lines. -/
theorem c2_witness :
    build wInp = Except.ok wModel
    ∧ (((wModel.fields.filter isKey).length = 0 →
        bodyLines (lastKeyIndex wModel.fields) 0 wModel.fields
            = wModel.fields.map Field.plantuml_entity_repr
          ∧ (bodyLines (lastKeyIndex wModel.fields) 0 wModel.fields).count
              ("\t--\n") = 0)
      ∧ (0 < (wModel.fields.filter isKey).length →
        bodyLines (lastKeyIndex wModel.fields) 0 wModel.fields
            = (wModel.fields.take (wModel.fields.filter isKey).length).map
                Field.plantuml_entity_repr
              ++ ([("\t--\n" : String)]
                ++ (wModel.fields.drop (wModel.fields.filter isKey).length).map
                    Field.plantuml_entity_repr)
          ∧ ((wModel.fields.take (wModel.fields.filter isKey).length).map
              Field.plantuml_entity_repr).length
              = (wModel.fields.filter isKey).length
          ∧ (bodyLines (lastKeyIndex wModel.fields) 0 wModel.fields).count
              ("\t--\n") = 1)
      ∧ plantuml_entity wModel
          = "entity " ++ wModel.dbTable ++ (" \x7b\n")
            ++ strJoin (bodyLines (lastKeyIndex wModel.fields) 0 wModel.fields)
            ++ ("\x7d\n")) :=
  ⟨rfl, c2_separator_placement wInp wModel rfl⟩

/-- C3 witness: the snapshot with the unresolvable `payload` column fails to
build. -/
theorem c3_witness :
    wBroken ∈ wInpBroken.columns
    ∧ wBroken.dbTypeRaw = none
    ∧ ∃ e : UnsupportedSchemaError, build wInpBroken = Except.error e
        ∧ ∀ d : ModelDescriptor, build wInpBroken ≠ Except.ok d :=
  ⟨List.mem_cons_of_mem wId (List.mem_cons_self wBroken []), rfl,
    c3_unresolved_type_aborts wInpBroken wBroken
      (List.mem_cons_of_mem wId (List.mem_cons_self wBroken [])) rfl⟩

/-- C4 (amended) witness at the `orders` snapshot. -/
theorem c4_witness :
    build wInp = Except.ok wModel
    ∧ wModel.modelDescription
        = (wInp.modelDoc.data.filter (fun c => !(c == ' ' || c == '\n'))).asString :=
  ⟨rfl, c4_description_strip wInp wModel rfl⟩

/-- C5 (amended) witness at the `customer_id` column. -/
theorem c5_witness :
    ((mkField wCustomer ("BIGINT")).description = "" ↔
      (wCustomer.verboseName = pyReplaceChar '_' (" ") wCustomer.name
        ∨ wCustomer.verboseName = ""))
    ∧ (wCustomer.verboseName ≠ pyReplaceChar '_' (" ") wCustomer.name →
        (mkField wCustomer ("BIGINT")).description = wCustomer.verboseName) :=
  c5_description_suppression wCustomer ("BIGINT")

/-- C6 witness: the `orders` markdown, and the concrete composite row
`customer_id, status` differing from both single rows. -/
theorem c6_witness :
    build wInp = Except.ok wModel
    ∧ markdown wModel
        = "## " ++ wModel.dbTable ++ "\n" ++ wModel.modelDescription
          ++ "\n\n#### schema\n| field_name | type | description |\n|---|---|---|\n"
          ++ strJoin (wModel.fields.map Field.markdown_repr)
          ++ "\n\n#### additional info\n| type | value | description |\n|---|---|---|\n"
          ++ strJoin ((singleIndexes wInp.columns).map mkIndexRow)
          ++ strJoin ((wInp.indexTogether.map pyJoinComma).map mkIndexRow)
          ++ strJoin ((singleUniques wInp.columns).map mkUniqueRow)
          ++ strJoin ((wInp.uniqueTogether.map pyJoinComma).map mkUniqueRow)
    ∧ pyReplaceChar ',' (", ") (pyJoinComma [("customer_id"), ("status")])
        = "customer_id" ++ (", ") ++ "status"
    ∧ mkIndexRow (pyJoinComma [("customer_id"), ("status")])
        ≠ mkIndexRow ("customer_id")
    ∧ mkIndexRow (pyJoinComma [("customer_id"), ("status")])
        ≠ mkIndexRow ("status") := by
  have h := c6_additional_info_rows wInp wModel rfl
  have h2 := h.2 ("customer_id") ("status") (by decide) (by decide)
  exact ⟨rfl, h.1, h2.1, h2.2.1, h2.2.2⟩

/-- C7 witness at a model with no fields. -/
theorem c7_witness :
    wModelEmpty.fields = []
    ∧ (plantuml_entity wModelEmpty
        = "entity " ++ wModelEmpty.dbTable ++ (" \x7b\n\x7d\n")
      ∧ markdown wModelEmpty
        = "## " ++ wModelEmpty.dbTable ++ "\n" ++ wModelEmpty.modelDescription
          ++ ("\n\n#### schema\n| field_name | type | description |\n|---|---|---|\n"
            ++ "\n\n#### additional info\n| type | value | description |\n|---|---|---|\n")
          ++ strJoin (wModelEmpty.dbIndexes.map mkIndexRow)
          ++ strJoin (wModelEmpty.uniqueConstraints.map mkUniqueRow)) :=
  ⟨rfl, c7_empty_model_renders wModelEmpty rfl⟩

/-- C8 witness at the `orders` model. -/
theorem c8_witness :
    wModel = wModel
    ∧ (markdown wModel = markdown wModel
      ∧ (markdown wModel).data = (markdown wModel).data
      ∧ plantuml_entity wModel = plantuml_entity wModel
      ∧ (plantuml_entity wModel).data = (plantuml_entity wModel).data) :=
  ⟨rfl, c8_render_determinism wModel wModel rfl⟩

/-- C9 witness: `wModel` and `wModelChoices` differ only in `choices` and
render identically. -/
theorem c9_witness :
    List.Forall₂ FieldAgreesExceptChoices wModel.fields wModelChoices.fields
    ∧ (markdown wModel = markdown wModelChoices
      ∧ plantuml_entity wModel = plantuml_entity wModelChoices) := by
  have hf : List.Forall₂ FieldAgreesExceptChoices wModel.fields
      wModelChoices.fields :=
    List.Forall₂.cons ⟨rfl, rfl, rfl, rfl, rfl⟩
      (List.Forall₂.cons ⟨rfl, rfl, rfl, rfl, rfl⟩
        (List.Forall₂.cons ⟨rfl, rfl, rfl, rfl, rfl⟩ List.Forall₂.nil))
  exact ⟨hf, c9_choices_not_rendered wModel wModelChoices rfl rfl rfl rfl hf⟩

/-- C10 witness at the `orders` snapshot. -/
theorem c10_witness :
    build wInp = Except.ok wModel
    ∧ ∃ fs0 : List Field,
        buildFields wInp.columns = Except.ok fs0
        ∧ List.Forall₂
            (fun c g => ∃ t, c.dbTypeRaw = some t ∧ g = mkField c (pyUpper t))
            wInp.columns fs0
        ∧ wModel.fields.Perm fs0
        ∧ wModel.fields.length = wInp.columns.length :=
  ⟨rfl, c10_fields_permutation wInp wModel rfl⟩

end DjangoUtilities
